import Mathlib

/-!
# Verification of the `tempo` terminal audio player

Shallow embedding of the playback controller (`internal/components/player/player.go`)
and of the audio-file metadata holder (`internal/components/player/audio_file.go`),
together with proofs settling the spec claims about them.

Modelling conventions:
* Go `time.Duration` and `time.Time` are `Int` nanosecond counts
  (`time.Duration(5)` is the integer 5, `time.Second` is `10^9`).
* Go `int` is `Int` (unbounded; none of the verified quantities approaches
  the `int64` overflow boundary on the inputs considered).
* Go integer division and remainder truncate toward zero, matching
  `Int.div` / `Int.mod`, which are used explicitly throughout.
* `float64` fields (the gain `Volume.Volume` and `Volume.Base`) are modelled
  as exact rationals; no verified claim depends on float rounding.
* A Go `nil`-pointer dereference (a panic) is modelled by an operation
  returning `none`; pointer fields of the player are `Option`-valued.
-/

namespace Tempo

/-- Go `time.Second` as an integer nanosecond count. -/
def oneSecond : Int := 1000000000

/-- Go `SeekCooldown = 200 * time.Millisecond` from `player.go`. -/
def SeekCooldown : Int := 200000000

/-- Go `VolumeShift float64 = 0.16` from `player.go` (gain modelled as a rational). -/
def VolumeShift : ℚ := 16/100

/-- Go `PathCharsLimit = 32` from `player.go`. -/
def PathCharsLimit : Int := 32

/-- beep's `SampleRate.N(d)`: the number of samples contained in duration `d`,
`int(d * time.Duration(sr) / time.Second)` with Go's truncating division. -/
def srN (sr d : Int) : Int := Int.tdiv (d * sr) oneSecond

/-- beep's `SampleRate.D(n)`: the duration of `n` samples,
`time.Second * time.Duration(n) / time.Duration(sr)` with Go's truncating
division.  Callers must guard `sr ≠ 0` (Go panics on division by zero). -/
def srD (sr n : Int) : Int := Int.tdiv (oneSecond * n) sr

/-- Go's `time.Duration.Round(m)`: rounds `d` to the nearest multiple of `m`,
half away from zero; returns `d` unchanged when `m ≤ 0`.  The `int64`
overflow escape hatches of the Go implementation are omitted (the values
this development evaluates it on are far from the boundary). -/
def durRound (d m : Int) : Int :=
  if m ≤ 0 then d
  else
    let r := Int.tmod d m
    if d < 0 then
      let r' := -r
      if r' + r' < m then d + r' else d + r' - m
    else
      if r + r < m then d - r else d - r + m

/-! ## String helpers: `path/filepath` and `strings` stdlib functions -/

/-- Unix path separator test (`os.IsPathSeparator`). -/
def isSlash (c : Char) : Bool := c = '/'

/-- Go `filepath.Base`: strip trailing separators, then keep everything
after the last separator; `"."` for the empty path, `"/"` for an
all-separator path.  (The Windows volume-name step is empty on Unix.) -/
def fpBase (s : String) : String :=
  if s.toList = [] then "."
  else
    let t := (s.toList.reverse.dropWhile isSlash).reverse
    if t = [] then "/"
    else String.mk (t.reverse.takeWhile (fun c => !isSlash c)).reverse

/-- Scan of Go's `filepath.Ext` over the reversed path: walk from the end of
the path; stop with `""` at a separator, and at the first `'.'` return the
suffix starting there.  `seen` holds, in original order, the characters
already passed (those after the current one in the path). -/
def fpExtGo : List Char → List Char → List Char
  | _, [] => []
  | seen, c :: rest =>
    if isSlash c then []
    else if c = '.' then c :: seen
    else fpExtGo (c :: seen) rest

/-- Go `filepath.Ext`: the suffix beginning at the final dot in the final
path element; empty if there is no dot. -/
def fpExt (s : String) : String := String.mk (fpExtGo [] s.toList.reverse)

/-- Helper for `strings.Replace(s, old, new, 1)` with non-empty `old`:
replace the first occurrence of `old`, leave `s` unchanged if absent. -/
def replaceFirstAux (old new : List Char) : List Char → List Char
  | [] => []
  | c :: rest =>
    if (c :: rest).take old.length = old
    then new ++ (c :: rest).drop old.length
    else c :: replaceFirstAux old new rest

/-- Go `strings.Replace(s, old, new, 1)`: with `old = ""` it inserts `new`
before the first character and stops; otherwise it replaces the first
occurrence of `old` (if any). -/
def replaceFirst (s old new : List Char) : List Char :=
  if old = [] then new ++ s else replaceFirstAux old new s

/-! ## AudioFile (`audio_file.go`) -/

/-- Go `AudioFile`: immutable metadata derived once from a path. -/
structure AudioFile where
  name : String
  ext : String
  path : String
deriving Repr, DecidableEq

/-- Go `NewAudioFile` from `audio_file.go`:
```
base := filepath.Base(path)
ext := filepath.Ext(base)
base = strings.Replace(base, ext, "", 1)
return AudioFile{name: base, ext: ext, path: path}
``` -/
def NewAudioFile (path : String) : AudioFile :=
  let base := fpBase path
  let ext := fpExt base
  let base' := String.mk (replaceFirst base.toList ext.toList [])
  { name := base', ext := ext, path := path }

/-! ## Player state (`player.go`)

The Go `Player` struct holds pointers to the decoded stream
(`beep.StreamSeekCloser`), the gain stage (`*effects.Volume`) and the
pause control (`*beep.Ctrl`); all three are `nil` until `LoadAudio`
succeeds, so they are `Option`-valued here, and every method that would
dereference a `nil` pointer (a Go panic) returns `none`. -/

/-- beep's `Format`; only the sample rate is consumed by the player. -/
structure Format where
  sampleRate : Int
deriving Repr, DecidableEq

/-- The decoded seekable stream handle.  `pos`/`len` mirror `Position()` and
`Len()` (sample counts); `errF` is what `Err()` reports; `closeErr` is the
error `Close()` would return; `closed` records that `Close()` ran. -/
structure Stream where
  pos : Int
  len : Int
  errF : Option String
  closeErr : Option String
  closed : Bool
deriving Repr, DecidableEq

/-- beep's documented `Seek` contract: repositioning succeeds exactly for
`0 ≤ n ≤ Len()`, failing (stream position unchanged) otherwise. -/
def streamSeek (s : Stream) (n : Int) : Except String Stream :=
  if 0 ≤ n ∧ n ≤ s.len then .ok { s with pos := n }
  else .error "seek position out of range"

/-- Go `effects.Volume`: the gain stage (float64 fields as rationals). -/
structure VolumeCtl where
  base : ℚ
  vol : ℚ
  silent : Bool
deriving Repr, DecidableEq

/-- Go `beep.Ctrl`: the pause-capable passthrough. -/
structure Ctrl where
  paused : Bool
deriving Repr, DecidableEq

/-- The `Player` struct of `player.go` (first version, with seek support).
`duration`, `elapsed` and `lastSeekTime` are `time.Duration` / `time.Time`
nanosecond counts as in Go; the mutex has no observable sequential effect. -/
structure Player where
  stream : Option Stream
  format : Format
  volume : Option VolumeCtl
  ctrl : Option Ctrl
  hasInit : Bool
  running : Bool
  completed : Bool
  quitting : Bool
  totalVolume : Int
  currentAudio : Option AudioFile
  duration : Int
  elapsed : Int
  err : Option String
  lastSeekTime : Int
deriving Repr, DecidableEq

/-- The commands (`tea.Cmd`) the player hands back to the event loop. -/
inductive Cmd where
  | idle
  | quitCmd
  | tickCmd
  | clearScreen
deriving Repr, DecidableEq

/-- The messages dispatched to `Update`: the one-second tick, or a key
press identified by `tea.KeyMsg.String()`. -/
inductive Msg where
  | tick
  | key (k : String)
deriving Repr, DecidableEq

/-- Go `New(volume)`: zero-valued player, then the initial volume clamped
into `[0,100]` (first `> 100`, then `< 0`, sequentially as in Go). -/
def New (volume : Int) : Player :=
  let v := if volume > 100 then 100 else volume
  let v := if v < 0 then 0 else v
  { stream := none, format := { sampleRate := 0 }, volume := none, ctrl := none,
    hasInit := false, running := false, completed := false, quitting := false,
    totalVolume := v, currentAudio := none, duration := 0, elapsed := 0,
    err := none, lastSeekTime := 0 }

/-- Go `Reset()`: clears the listed session fields (note: `lastSeekTime`,
`stream`, `format`, `volume`, `ctrl` and `err` are not touched). -/
def Reset (p : Player) : Player :=
  { p with currentAudio := none, hasInit := false, running := false,
           completed := false, quitting := false, totalVolume := 50,
           duration := 0, elapsed := 0 }

/-- Go `Close()`: stops running, closes the stream if present (recording the
close error, if any, in `err`); returns the player and `Close`'s error
value (discarded by its only caller, `Quit`). -/
def Close (p : Player) : Player × Option String :=
  let p := { p with running := false }
  match p.stream with
  | none => (p, none)
  | some s =>
    let s' := { s with closed := true }
    match s.closeErr with
    | some e => ({ p with stream := some s', err := some e }, some e)
    | none => ({ p with stream := some s' }, none)

/-- Go `Quit()`: marks `quitting`, closes, and returns the `tea.Quit` command. -/
def Quit (p : Player) : Player × Cmd :=
  let p := { p with quitting := true }
  ((Close p).1, Cmd.quitCmd)

/-- Go `Play()`: no-op once initialized; otherwise marks `hasInit` (even when
already running), starts running, hands the stream to the speaker (external;
the end-of-stream callback that later sets `completed` is asynchronous and
not part of this sequential step), and returns the first tick command. -/
def Play (p : Player) : Player × Cmd :=
  if p.hasInit then (p, Cmd.idle)
  else
    let p := { p with hasInit := true }
    if p.running then (p, Cmd.idle)
    else ({ p with running := true }, Cmd.tickCmd)

/-- The asynchronous completion watcher's single state write: fired once by
the audio engine when the stream ends. -/
def completionSignal (p : Player) : Player := { p with completed := true }

/-- Go `Resume()`: guarded no-ops, then runs and unpauses the ctrl (nil
dereference if `ctrl` is absent). -/
def Resume (p : Player) : Option Player :=
  if ¬ p.hasInit then some p
  else if p.completed ∨ p.running then some p
  else
    match p.ctrl with
    | none => none
    | some c => some { p with running := true, ctrl := some { c with paused := false } }

/-- Go `Stop()`: guarded no-ops, then stops running and pauses the ctrl. -/
def Stop (p : Player) : Option Player :=
  if ¬ p.hasInit then some p
  else if p.completed ∨ ¬ p.running then some p
  else
    match p.ctrl with
    | none => none
    | some c => some { p with running := false, ctrl := some { c with paused := true } }

/-- Go `StopOrResume()`: `Stop` while running, else `Resume`. -/
def StopOrResume (p : Player) : Option Player :=
  if p.running then Stop p else Resume p

/-- Go `DecrementVolume()`: `totalVolume -= 5` clamped at 0; gain shifted down
only while the clamped result is positive; `Silent` recomputed as
`totalVolume == 0` (dereferences `volume`). -/
def DecrementVolume (p : Player) : Option Player :=
  let tv := p.totalVolume - 5
  let tv := if tv < 0 then 0 else tv
  match p.volume with
  | none => none
  | some v =>
    let v := if tv > 0 then { v with vol := v.vol - VolumeShift } else v
    let v := if tv = 0 then { v with silent := true } else { v with silent := false }
    some { p with totalVolume := tv, volume := some v }

/-- Go `IncrementVolume()`: `totalVolume += 5` clamped at 100; gain shifted up
only while the clamped result is below 100; `Silent` recomputed as
`totalVolume == 0`. -/
def IncrementVolume (p : Player) : Option Player :=
  let tv := p.totalVolume + 5
  let tv := if tv > 100 then 100 else tv
  match p.volume with
  | none => none
  | some v =>
    let v := if tv < 100 then { v with vol := v.vol + VolumeShift } else v
    let v := if tv = 0 then { v with silent := true } else { v with silent := false }
    some { p with totalVolume := tv, volume := some v }

/-- Go `MuteVolume()`: sets the gain stage silent. -/
def MuteVolume (p : Player) : Option Player :=
  p.volume.map fun v => { p with volume := some { v with silent := true } }

/-- Go `UnmuteVolume()`: clears the gain stage's silent flag. -/
def UnmuteVolume (p : Player) : Option Player :=
  p.volume.map fun v => { p with volume := some { v with silent := false } }

/-- Go `ToggleVolume()`: unmute if silent, else mute. -/
def ToggleVolume (p : Player) : Option Player :=
  match p.volume with
  | none => none
  | some v => if v.silent then UnmuteVolume p else MuteVolume p

/-- Go `Rewind()` at wall-clock time `now` (ns): rejected while within the
seek cooldown (`time.Since(lastSeekTime) < SeekCooldown`); propagates a
pending stream error; otherwise computes `skipDuration = time.Duration(5)`,
zeroed when `elapsed + skip >= duration`, moves the sample position back by
`SampleRate.N(time.Second * skip)` clamped at 0, sets
`elapsed = max(elapsed - skip, 0)` before seeking, and records
`lastSeekTime = now` only when the seek succeeds. -/
def Rewind (now : Int) (p : Player) : Option Player :=
  if now - p.lastSeekTime < SeekCooldown then some p
  else
    match p.stream with
    | none => none
    | some s =>
      match s.errF with
      | some e => some { p with err := some e }
      | none =>
        let skip : Int := 5
        let skip := if p.elapsed + skip ≥ p.duration then 0 else skip
        let currentPos := s.pos
        let offset := srN p.format.sampleRate (oneSecond * skip)
        let newPos := currentPos - offset
        let newPos := max newPos 0
        let elapsed' := max (p.elapsed - skip) 0
        match streamSeek s newPos with
        | .error e => some { p with elapsed := elapsed', err := some e }
        | .ok s' => some { p with elapsed := elapsed', stream := some s', lastSeekTime := now }

/-- Go `Forward()` at wall-clock time `now` (ns): the mirror of `Rewind` —
same cooldown and stream-error checks, same `skipDuration` computation
(zeroed when `elapsed + skip >= duration`), position moved forward by the
sample offset clamped to `Len() - 1`, and
`elapsed = min(elapsed + skip, duration)` set before seeking. -/
def Forward (now : Int) (p : Player) : Option Player :=
  if now - p.lastSeekTime < SeekCooldown then some p
  else
    match p.stream with
    | none => none
    | some s =>
      match s.errF with
      | some e => some { p with err := some e }
      | none =>
        let skip : Int := 5
        let skip := if p.elapsed + skip ≥ p.duration then 0 else skip
        let currentPos := s.pos
        let offset := srN p.format.sampleRate (oneSecond * skip)
        let newPos := currentPos + offset
        let newPos := min newPos (s.len - 1)
        let elapsed' := min (p.elapsed + skip) p.duration
        match streamSeek s newPos with
        | .error e => some { p with elapsed := elapsed', err := some e }
        | .ok s' => some { p with elapsed := elapsed', stream := some s', lastSeekTime := now }

/-- Go `Restart()`: saves `currentAudio`, `totalVolume` and the gain stage's
`Silent` flag; runs `Reset`; recomputes `duration` from the stream length
and sample rate (Go panics if the sample rate is zero: `none`); restores
the saved fields; seeks the stream to 0 discarding the error; replays
`Play` discarding its command.  Dereferences `volume` and `stream`. -/
def Restart (p : Player) : Option Player :=
  match p.volume, p.stream with
  | some v, some s =>
    if p.format.sampleRate = 0 then none
    else
      let auxFile := p.currentAudio
      let auxTotalVolume := p.totalVolume
      let silent := v.silent
      let p1 := Reset p
      let p2 := { p1 with
        elapsed := 0,
        duration := durRound (srD p.format.sampleRate s.len) oneSecond,
        currentAudio := auxFile,
        totalVolume := auxTotalVolume,
        volume := some { v with silent := silent } }
      let p3 :=
        match streamSeek s 0 with
        | .ok s' => { p2 with stream := some s' }
        | .error _ => p2
      some (Play p3).1
  | _, _ => none

/-- The environment `LoadAudio` runs against: the outcome of `os.Open` on
the current file's path, and the outcome of the mp3 / wav decoder on the
opened file. -/
structure LoadEnv where
  openErr : Option String
  mp3Result : Except String (Stream × Format)
  wavResult : Except String (Stream × Format)
deriving Repr

/-- Go `LoadAudio()`: no-op without an attached file; `"invalid file
extension"` error for an empty extension; `os.Open` failure recorded in
`err`; decode dispatched on `".mp3"` / `".wav"` with the same error for any
other extension; on success installs the stream, format,
`duration = SampleRate.D(Len()).Round(time.Second)` (Go panics when the
decoded sample rate is zero: `none`), a fresh unpaused `Ctrl` and a fresh
gain stage (base 1.5, gain 0, non-silent), made silent when
`totalVolume == 0`. -/
def LoadAudio (env : LoadEnv) (p : Player) : Option Player :=
  match p.currentAudio with
  | none => some p
  | some a =>
    if a.ext = "" then some { p with err := some "invalid file extension" }
    else
      match env.openErr with
      | some e => some { p with err := some e }
      | none =>
        let res : Except String (Stream × Format) :=
          if a.ext = ".mp3" then env.mp3Result
          else if a.ext = ".wav" then env.wavResult
          else .error "invalid file extension"
        match res with
        | .error e => some { p with err := some e }
        | .ok (streamer, format) =>
          if format.sampleRate = 0 then none
          else
            let vol : VolumeCtl := { base := 3/2, vol := 0, silent := false }
            let vol := if p.totalVolume = 0 then { vol with silent := true } else vol
            some { p with
              stream := some streamer,
              format := format,
              duration := durRound (srD format.sampleRate streamer.len) oneSecond,
              ctrl := some { paused := false },
              volume := some vol }

/-- Go `Update(msg)` at wall-clock time `now`: short-circuits to `Quit` when
`err` is set; autoplays when not yet initialized with a file attached;
otherwise dispatches the tick (incrementing `elapsed` while running and not
completed, always re-arming the tick) or the key intents.  Go's
`return p, nil` is `(p, Cmd.idle)`; mutations made through the shared
pointer before returning are reflected in the returned state. -/
def Update (now : Int) (msg : Msg) (p : Player) : Option (Player × Cmd) :=
  if p.err.isSome then some (Quit p)
  else if ¬ p.hasInit ∧ p.currentAudio.isSome then some (Play p)
  else
    match msg with
    | .tick =>
      let p := if ¬ p.completed ∧ p.running then { p with elapsed := p.elapsed + 1 } else p
      some (p, Cmd.tickCmd)
    | .key k =>
      if k = "ctrl+c" ∨ k = "q" ∨ k = "Q" then some (Quit p)
      else if k = "enter" ∨ k = " " then
        (if p.completed then Restart p else StopOrResume p).map (fun p' => (p', Cmd.idle))
      else if k = "+" ∨ k = "up" ∨ k = "k" then (IncrementVolume p).map (fun p' => (p', Cmd.idle))
      else if k = "-" ∨ k = "down" ∨ k = "j" then (DecrementVolume p).map (fun p' => (p', Cmd.idle))
      else if k = "left" ∨ k = "h" then (Rewind now p).map (fun p' => (p', Cmd.idle))
      else if k = "right" ∨ k = "l" then (Forward now p).map (fun p' => (p', Cmd.idle))
      else if k = "m" ∨ k = "M" then (ToggleVolume p).map (fun p' => (p', Cmd.idle))
      else some (p, Cmd.idle)

/-! ## Volume-call sequences (for the volume invariant, claim C1) -/

/-- A volume-key intent: `IncrementVolume` or `DecrementVolume`. -/
inductive VolOp where
  | inc
  | dec
deriving Repr, DecidableEq

/-- Apply one volume intent. -/
def applyVolOp : VolOp → Player → Option Player
  | .inc, p => IncrementVolume p
  | .dec, p => DecrementVolume p

/-- Run a sequence of volume intents (a panic anywhere aborts the run). -/
def runVolOps : List VolOp → Player → Option Player
  | [], p => some p
  | o :: os, p => (applyVolOp o p).bind (runVolOps os)

/-! ## Concrete fixtures

A 44.1 kHz, 441000-sample (ten-second) decoded stream and a player in the
state `LoadAudio` + autoplay would leave it in, used to instantiate the
theorems below. -/

/-- A healthy ten-second 44.1 kHz stream positioned at the 8-second sample. -/
def sampleStream : Stream :=
  { pos := 352800, len := 441000, errF := none, closeErr := none, closed := false }

/-- The gain stage exactly as `LoadAudio` constructs it. -/
def sampleVolume : VolumeCtl := { base := 3/2, vol := 0, silent := false }

/-- A running player on the ten-second file, 8 elapsed ticks, no error. -/
def samplePlayer : Player :=
  { stream := some sampleStream, format := { sampleRate := 44100 },
    volume := some sampleVolume, ctrl := some { paused := false },
    hasInit := true, running := true, completed := false, quitting := false,
    totalVolume := 50, currentAudio := some (NewAudioFile "ten.mp3"),
    duration := durRound (srD 44100 441000) oneSecond, elapsed := 8,
    err := none, lastSeekTime := 0 }

/-- The state `Forward` at t = 1 s leaves `samplePlayer` in: position
clamped to `Len() - 1`, `elapsed` advanced by the raw 5-unit skip, and the
seek time recorded. -/
def c4AcceptedPlayer : Player :=
  { samplePlayer with
    elapsed := 13,
    stream := some { sampleStream with pos := 440999 },
    lastSeekTime := 1000000000 }

/-- A finished session: paused, muted, volume 35, playhead at the end. -/
def c5CompletedPlayer : Player :=
  { samplePlayer with
    running := false, completed := true, elapsed := 10, totalVolume := 35,
    volume := some { sampleVolume with silent := true },
    stream := some { sampleStream with pos := 441000 } }

/-- A finished session still at the default volume. -/
def c10CompletedPlayer : Player :=
  { samplePlayer with running := false, completed := true, elapsed := 10 }

/-- The sample player at the non-multiple-of-5 volume 3 (reachable, since
`New` clamps but does not round the `-vol` flag). -/
def c1Player : Player := { samplePlayer with totalVolume := 3 }

/-- The state one `DecrementVolume` leaves `c1Player` in: volume clamped
to 0 and the gain stage silenced. -/
def c1PlayerAfter : Player :=
  { samplePlayer with
    totalVolume := 0,
    volume := some { sampleVolume with silent := true } }

/-- A player on a very short file (21000 samples at 44.1 kHz is under half
a second, so `LoadAudio` computes `duration = 0` after rounding), running
and not completed, with `elapsed = duration`. -/
def c2ShortPlayer : Player :=
  { samplePlayer with
    duration := durRound (srD 44100 21000) oneSecond,
    elapsed := 0,
    stream := some { sampleStream with pos := 0, len := 21000 } }

/-- The state one tick leaves `c2ShortPlayer` in. -/
def c2TickedPlayer : Player := { c2ShortPlayer with elapsed := 1 }

/-- A healthy load environment: the file opens and both decoders would
succeed on a fresh ten-second stream. -/
def c6Env : LoadEnv :=
  { openErr := none,
    mp3Result := .ok ({ sampleStream with pos := 0 }, { sampleRate := 44100 }),
    wavResult := .ok ({ sampleStream with pos := 0 }, { sampleRate := 44100 }) }

/-- A fresh player with an unsupported-extension file attached. -/
def c6OggPlayer : Player :=
  { New 50 with currentAudio := some (NewAudioFile "song.ogg") }

end Tempo

namespace Tempo

/-! ## Claim C4: seek cooldown makes the second of a rapid pair a no-op -/

/-- C4: for every pair of seek calls (`Rewind` or `Forward`) in which the
first is accepted at time `t₁` (recording `lastSeekTime = t₁`) and the
second arrives at a time `t₂` within the 200 ms cooldown window, the second
call returns the state completely unchanged — `elapsed`, `lastSeekTime`,
the stream position and every other field are those of the input. -/
theorem seek_cooldown_second_noop (p p₁ : Player) (t₁ t₂ : Int)
    (_hfirst : Rewind t₁ p = some p₁ ∨ Forward t₁ p = some p₁)
    (hacc : p₁.lastSeekTime = t₁)
    (hcool : t₂ - t₁ < SeekCooldown) :
    Rewind t₂ p₁ = some p₁ ∧ Forward t₂ p₁ = some p₁ := by
  constructor <;> simp [Rewind, Forward, hacc, hcool]

/-- Witness for C4 on the sample player: a forward seek at t = 1 s is
accepted, and both seek directions 100 ms later leave the state unchanged. -/
theorem seek_cooldown_second_noop_witness :
    Rewind 1100000000 c4AcceptedPlayer = some c4AcceptedPlayer ∧
    Forward 1100000000 c4AcceptedPlayer = some c4AcceptedPlayer :=
  seek_cooldown_second_noop samplePlayer c4AcceptedPlayer 1000000000 1100000000
    (Or.inr (by rfl)) (by rfl) (by decide)

/-! ## Claim C7: a set error short-circuits `Update` to the quit directive -/

/-- Helper: the state `Close` returns — playback stopped, the stream (when
present) closed, everything else untouched (the `err` field aside, which
records a failing `Close`). -/
theorem Close_fst_fields (p : Player) :
    (Close p).1.running = false ∧ (Close p).1.quitting = p.quitting ∧
    (Close p).1.elapsed = p.elapsed ∧ (Close p).1.totalVolume = p.totalVolume ∧
    (Close p).1.volume = p.volume ∧ (Close p).1.ctrl = p.ctrl ∧
    (Close p).1.hasInit = p.hasInit ∧ (Close p).1.completed = p.completed ∧
    (Close p).1.currentAudio = p.currentAudio ∧ (Close p).1.duration = p.duration ∧
    (Close p).1.lastSeekTime = p.lastSeekTime ∧
    (∀ s, p.stream = some s → (Close p).1.stream = some { s with closed := true }) := by
  unfold Close
  cases hs : p.stream with
  | none => simp [hs]
  | some s => cases hce : s.closeErr <;> simp [hs, hce]

/-- C7: for every incoming message (tick or key intent), once `err` is set
`Update` short-circuits: it returns exactly the `Quit` directive — the
state with `quitting` marked, playback stopped and the stream closed,
paired with the quit command — and performs no other intent processing:
`elapsed`, `totalVolume`, the gain stage, the ctrl, `hasInit`,
`completed`, `currentAudio`, `duration` and `lastSeekTime` are untouched. -/
theorem error_short_circuits_update (now : Int) (msg : Msg) (p : Player)
    (h : p.err.isSome) :
    ∃ q, Update now msg p = some (q, Cmd.quitCmd) ∧ q = (Quit p).1 ∧
      q.quitting = true ∧ q.running = false ∧
      q.elapsed = p.elapsed ∧ q.totalVolume = p.totalVolume ∧
      q.volume = p.volume ∧ q.ctrl = p.ctrl ∧ q.hasInit = p.hasInit ∧
      q.completed = p.completed ∧ q.currentAudio = p.currentAudio ∧
      q.duration = p.duration ∧ q.lastSeekTime = p.lastSeekTime ∧
      (∀ s, p.stream = some s → ∃ s', q.stream = some s' ∧ s'.closed = true) := by
  have hcmd : (Quit p).2 = Cmd.quitCmd := rfl
  have hpair : ((Quit p).1, Cmd.quitCmd) = Quit p := by rw [← hcmd]
  have hup : Update now msg p = some (Quit p) := by simp [Update, h]
  have hfields := Close_fst_fields { p with quitting := true }
  obtain ⟨f1, f2, f3, f4, f5, f6, f7, f8, f9, f10, f11, f12⟩ := hfields
  refine ⟨(Quit p).1, by rw [hup, hpair], rfl, ?_, ?_, ?_, ?_, ?_, ?_, ?_, ?_, ?_, ?_, ?_, ?_⟩
  · exact f2
  · exact f1
  · exact f3
  · exact f4
  · exact f5
  · exact f6
  · exact f7
  · exact f8
  · exact f9
  · exact f10
  · exact f11
  · intro s hs
    exact ⟨{ s with closed := true }, f12 s hs, rfl⟩

/-- Witness for C7: an errored sample player receiving a seek key yields
the quit directive with the stream closed. -/
theorem error_short_circuits_update_witness :
    ∃ q, Update 0 (Msg.key "left") { samplePlayer with err := some "decode failed" }
        = some (q, Cmd.quitCmd) ∧
      q = (Quit { samplePlayer with err := some "decode failed" }).1 ∧
      q.quitting = true ∧ q.running = false ∧
      q.elapsed = samplePlayer.elapsed ∧ q.totalVolume = samplePlayer.totalVolume ∧
      q.volume = samplePlayer.volume ∧ q.ctrl = samplePlayer.ctrl ∧
      q.hasInit = samplePlayer.hasInit ∧ q.completed = samplePlayer.completed ∧
      q.currentAudio = samplePlayer.currentAudio ∧ q.duration = samplePlayer.duration ∧
      q.lastSeekTime = samplePlayer.lastSeekTime ∧
      (∀ s, ({ samplePlayer with err := some "decode failed" } : Player).stream = some s →
        ∃ s', q.stream = some s' ∧ s'.closed = true) :=
  error_short_circuits_update 0 (Msg.key "left")
    { samplePlayer with err := some "decode failed" } (by rfl)

/-! ## Claims C5 and C10: `Restart` and the enter/space dispatch -/

/-- Helper: full characterization of a successful `Restart` on a loaded
player (gain stage and stream present, nonzero sample rate): the session is
fresh — `elapsed = 0`, initialized, running, not completed, not quitting —
while `totalVolume`, the `muted` flag and the attached file survive, and
`duration` is recomputed from the stream length and sample rate. -/
theorem Restart_spec (p : Player) (v : VolumeCtl) (s : Stream)
    (hv : p.volume = some v) (hs : p.stream = some s)
    (hsr : p.format.sampleRate ≠ 0) :
    ∃ p', Restart p = some p' ∧ p'.elapsed = 0 ∧ p'.hasInit = true ∧
      p'.running = true ∧ p'.completed = false ∧ p'.quitting = false ∧
      p'.totalVolume = p.totalVolume ∧
      (∃ v', p'.volume = some v' ∧ v'.silent = v.silent) ∧
      p'.currentAudio = p.currentAudio ∧
      p'.duration = durRound (srD p.format.sampleRate s.len) oneSecond := by
  unfold Restart
  rw [hv, hs]
  cases hseek : streamSeek s 0 with
  | error e =>
    simp only [hsr, hseek]
    exact ⟨_, rfl, by simp [Play, Reset]⟩
  | ok s' =>
    simp only [hsr, hseek]
    exact ⟨_, rfl, by simp [Play, Reset]⟩

/-- C5: for every player with an attached audio file (and the loaded
stream/gain stage a real session has), `Restart()` yields `elapsed = 0`,
`running = true`, `completed = false`, and preserves the pre-restart
`totalVolume` and `muted` flag exactly, keeping the same attached file. -/
theorem restart_fresh_session (p : Player) (v : VolumeCtl) (s : Stream) (af : AudioFile)
    (hv : p.volume = some v) (hs : p.stream = some s)
    (hsr : p.format.sampleRate ≠ 0) (ha : p.currentAudio = some af) :
    ∃ p', Restart p = some p' ∧ p'.elapsed = 0 ∧ p'.running = true ∧
      p'.completed = false ∧ p'.totalVolume = p.totalVolume ∧
      (∃ v', p'.volume = some v' ∧ v'.silent = v.silent) ∧
      p'.currentAudio = some af := by
  obtain ⟨p', h1, h2, _h3, h4, h5, _h6, h7, h8, h9, _h10⟩ := Restart_spec p v s hv hs hsr
  exact ⟨p', h1, h2, h4, h5, h7, h8, by rw [h9, ha]⟩

/-- Witness for C5: restarting the completed sample player (paused, muted,
volume 35, 10 elapsed ticks) gives a fresh running session with volume 35
and the muted flag still set. -/
theorem restart_fresh_session_witness :
    ∃ p', Restart c5CompletedPlayer = some p' ∧ p'.elapsed = 0 ∧
      p'.running = true ∧ p'.completed = false ∧
      p'.totalVolume = c5CompletedPlayer.totalVolume ∧
      (∃ v', p'.volume = some v' ∧ v'.silent = ({ sampleVolume with silent := true } : VolumeCtl).silent) ∧
      p'.currentAudio = some (NewAudioFile "ten.mp3") :=
  restart_fresh_session c5CompletedPlayer { sampleVolume with silent := true }
    { sampleStream with pos := 441000 } (NewAudioFile "ten.mp3")
    (by rfl) (by rfl) (by decide) (by rfl)

/-- C10: with no error pending and the player initialized, an enter/space
key while `completed` invokes `Restart` — `Update` returns the restarted
state (running again from `elapsed = 0`) with an idle command — whereas the
same key while not completed dispatches exactly the pause/resume toggle
`StopOrResume`. -/
theorem completed_enter_restarts (now : Int) (k : String) (p : Player)
    (v : VolumeCtl) (s : Stream)
    (hk : k = "enter" ∨ k = " ")
    (he : p.err = none) (hi : p.hasInit = true)
    (hv : p.volume = some v) (hs : p.stream = some s)
    (hsr : p.format.sampleRate ≠ 0) :
    (p.completed = true →
      ∃ p', Update now (Msg.key k) p = some (p', Cmd.idle) ∧ Restart p = some p' ∧
        p'.running = true ∧ p'.elapsed = 0 ∧ p'.completed = false) ∧
    (p.completed = false →
      Update now (Msg.key k) p = (StopOrResume p).map (fun q => (q, Cmd.idle))) := by
  rcases hk with rfl | rfl <;>
  · constructor
    · intro hc
      obtain ⟨p', h1, h2, _h3, h4, h5, _rest⟩ := Restart_spec p v s hv hs hsr
      exact ⟨p', by simp [Update, he, hi, hc, h1], h1, h4, h2, h5⟩
    · intro hc
      simp [Update, he, hi, hc]

/-- Witness for C10: on the completed sample player, the space key
restarts (running, elapsed 0); on the running sample player, the space key
dispatches `StopOrResume`. -/
theorem completed_enter_restarts_witness :
    (∃ p', Update 0 (Msg.key " ") c10CompletedPlayer = some (p', Cmd.idle) ∧
      Restart c10CompletedPlayer = some p' ∧ p'.running = true ∧
      p'.elapsed = 0 ∧ p'.completed = false) ∧
    Update 0 (Msg.key " ") samplePlayer
      = (StopOrResume samplePlayer).map (fun q => (q, Cmd.idle)) :=
  ⟨(completed_enter_restarts 0 " " c10CompletedPlayer sampleVolume sampleStream
      (Or.inr rfl) (by rfl) (by rfl) (by rfl) (by rfl) (by decide)).1 (by rfl),
   (completed_enter_restarts 0 " " samplePlayer sampleVolume sampleStream
      (Or.inr rfl) (by rfl) (by rfl) (by rfl) (by rfl) (by decide)).2 (by rfl)⟩

/-! ## Claim C8: the mute toggle is self-inverse and volume-preserving -/

/-- C8: `ToggleVolume` (the mute toggle) never changes `totalVolume`, and
two consecutive calls restore the entire prior state (in particular the
prior `muted` flag). -/
theorem toggle_volume_self_inverse (p : Player) (v : VolumeCtl)
    (hv : p.volume = some v) :
    ∃ p₁, ToggleVolume p = some p₁ ∧ p₁.totalVolume = p.totalVolume ∧
      ToggleVolume p₁ = some p := by
  cases p with
  | mk stream format volume ctrl hasInit running completed quitting
      totalVolume currentAudio duration elapsed err lastSeekTime =>
    cases v with
    | mk base vol silent =>
      simp only [Player.volume] at hv
      subst hv
      cases silent <;>
        simp [ToggleVolume, MuteVolume, UnmuteVolume]

/-- Witness for C8 on the sample player (unmuted): toggling mutes without
touching `totalVolume` and toggling again restores the original state. -/
theorem toggle_volume_self_inverse_witness :
    ∃ p₁, ToggleVolume samplePlayer = some p₁ ∧
      p₁.totalVolume = samplePlayer.totalVolume ∧
      ToggleVolume p₁ = some samplePlayer :=
  toggle_volume_self_inverse samplePlayer sampleVolume (by rfl)

/-! ## Claim C6: unsupported extensions fail `LoadAudio` without side effects -/

/-- C6: in every environment, loading an attached file whose extension is
neither `".mp3"` nor `".wav"` sets the error field and returns with every
other state field exactly as it was; and on every `LoadAudio` path (failure
or success, any extension) the `initialized` flag `hasInit` is untouched. -/
theorem load_unsupported_ext_fails_clean (env : LoadEnv) (p q : Player) (a : AudioFile) :
    (p.currentAudio = some a → a.ext ≠ ".mp3" → a.ext ≠ ".wav" →
      ∃ e, LoadAudio env p = some { p with err := some e }) ∧
    (LoadAudio env p = some q → q.hasInit = p.hasInit) := by
  constructor
  · intro ha h1 h2
    unfold LoadAudio
    rw [ha]
    by_cases he : a.ext = ""
    · exact ⟨"invalid file extension", by simp [he]⟩
    · cases ho : env.openErr with
      | some e => exact ⟨e, by simp [he, ho]⟩
      | none => exact ⟨"invalid file extension", by simp [he, ho, h1, h2]⟩
  · intro hq
    unfold LoadAudio at hq
    cases hca : p.currentAudio with
    | none => rw [hca] at hq; injection hq with hq; rw [← hq]
    | some a' =>
      rw [hca] at hq
      by_cases he : a'.ext = ""
      · simp only [he, ite_true, if_pos] at hq
        injection hq with hq; rw [← hq]
      · simp only [he, ite_false, if_neg, not_false_iff] at hq
        cases ho : env.openErr with
        | some e => rw [ho] at hq; injection hq with hq; rw [← hq]
        | none =>
          rw [ho] at hq
          rcases hres : (if a'.ext = ".mp3" then env.mp3Result
              else if a'.ext = ".wav" then env.wavResult
              else Except.error "invalid file extension") with e | sf
          · rw [hres] at hq; injection hq with hq; rw [← hq]
          · rw [hres] at hq
            obtain ⟨streamer, format⟩ := sf
            by_cases hsr : format.sampleRate = 0
            · simp [hsr] at hq
            · simp only [hsr, ite_false, if_neg, not_false_iff] at hq
              injection hq with hq; rw [← hq]

/-- Witness for C6: loading an attached `.ogg` file in a healthy
environment (the decoders would succeed) errors out leaving the freshly
constructed player otherwise untouched; and a successful `.mp3` load in the
same environment also leaves `hasInit` untouched. -/
theorem load_unsupported_ext_fails_clean_witness :
    (∃ e, LoadAudio c6Env c6OggPlayer = some { c6OggPlayer with err := some e }) ∧
    ((LoadAudio c6Env c6OggPlayer).map (fun q => q.hasInit) = some c6OggPlayer.hasInit) :=
  ⟨(load_unsupported_ext_fails_clean c6Env c6OggPlayer c6OggPlayer
      (NewAudioFile "song.ogg")).1 (by rfl) (by decide) (by decide),
   by
    obtain ⟨e, he⟩ := (load_unsupported_ext_fails_clean c6Env c6OggPlayer c6OggPlayer
      (NewAudioFile "song.ogg")).1 (by rfl) (by decide) (by decide)
    rw [he]
    exact congrArg some
      ((load_unsupported_ext_fails_clean c6Env c6OggPlayer _ (NewAudioFile "song.ogg")).2 he)⟩

/-! ## Claim C1: volume clamping and the exact-landing condition -/

/-- Counterexample to C1 as stated: the claim quantifies over every
starting `totalVolume` in `[0,100]`, but from `totalVolume = 3` a single
`DecrementVolume` call reaches the bound 0 by clamping (`3 - 5 = -2` is
clamped), not on a step that exactly lands on it: the claim's
"reaches 0 or 100 only on the step that exactly lands on that bound" is
false at this input. -/
theorem volume_exact_landing_cex :
    DecrementVolume c1Player = some c1PlayerAfter ∧
    c1Player.totalVolume = 3 ∧ c1PlayerAfter.totalVolume = 0 ∧
    c1Player.totalVolume ≠ 0 ∧ c1Player.totalVolume - 5 ≠ 0 := by
  exact ⟨rfl, rfl, rfl, by decide, by decide⟩

/-- Helper: one `IncrementVolume` call, characterized on a player whose
gain stage is present: it succeeds, keeps the gain stage present, and
clamps `totalVolume + 5` at 100. -/
theorem IncrementVolume_char (p : Player) (v : VolumeCtl) (hv : p.volume = some v) :
    ∃ p', IncrementVolume p = some p' ∧ p'.volume.isSome = true ∧
      p'.totalVolume = (if p.totalVolume + 5 > 100 then 100 else p.totalVolume + 5) := by
  unfold IncrementVolume
  rw [hv]
  exact ⟨_, rfl, rfl, rfl⟩

/-- Helper: one `DecrementVolume` call, characterized likewise: it clamps
`totalVolume - 5` at 0. -/
theorem DecrementVolume_char (p : Player) (v : VolumeCtl) (hv : p.volume = some v) :
    ∃ p', DecrementVolume p = some p' ∧ p'.volume.isSome = true ∧
      p'.totalVolume = (if p.totalVolume - 5 < 0 then 0 else p.totalVolume - 5) := by
  unfold DecrementVolume
  rw [hv]
  exact ⟨_, rfl, rfl, rfl⟩

/-- Helper: a single volume step from any state with `totalVolume` in
`[0,100]` stays in `[0,100]`; when the pre-state volume is additionally a
multiple of 5, the result stays a multiple of 5 and reaches a bound only
by landing exactly on it. -/
theorem volOp_invariant (o : VolOp) (p : Player)
    (hv : p.volume.isSome = true)
    (h0 : 0 ≤ p.totalVolume) (h100 : p.totalVolume ≤ 100) :
    ∃ p', applyVolOp o p = some p' ∧ p'.volume.isSome = true ∧
      0 ≤ p'.totalVolume ∧ p'.totalVolume ≤ 100 ∧
      (5 ∣ p.totalVolume →
        5 ∣ p'.totalVolume ∧
        (p'.totalVolume = 0 → p.totalVolume = 0 ∨ p.totalVolume - 5 = 0) ∧
        (p'.totalVolume = 100 → p.totalVolume = 100 ∨ p.totalVolume + 5 = 100)) := by
  obtain ⟨v, hvs⟩ := Option.isSome_iff_exists.mp hv
  cases o with
  | inc =>
    obtain ⟨p', h1, h2, h3⟩ := IncrementVolume_char p v hvs
    refine ⟨p', h1, h2, ?_, ?_, fun h5 => ⟨?_, ?_, ?_⟩⟩ <;>
      rw [h3] <;> split_ifs <;> omega
  | dec =>
    obtain ⟨p', h1, h2, h3⟩ := DecrementVolume_char p v hvs
    refine ⟨p', h1, h2, ?_, ?_, fun h5 => ⟨?_, ?_, ?_⟩⟩ <;>
      rw [h3] <;> split_ifs <;> omega

/-- C1 amended: for every sequence of `IncrementVolume`/`DecrementVolume`
calls starting from any `totalVolume` in `[0,100]`, `totalVolume` remains
in `[0,100]` after every call; and when the starting `totalVolume` is
additionally a multiple of 5 (the only values reachable from the
defaults), every further call from any reachable state reaches 0 or 100
only on a step that exactly lands on that bound.  (For starting volumes
that are not multiples of 5 the bound is reached by clamping: see the
counterexample.) -/
theorem volume_sequence_invariant (ops : List VolOp) (p : Player)
    (hv : p.volume.isSome = true)
    (h0 : 0 ≤ p.totalVolume) (h100 : p.totalVolume ≤ 100) :
    ∃ p', runVolOps ops p = some p' ∧
      0 ≤ p'.totalVolume ∧ p'.totalVolume ≤ 100 ∧
      (5 ∣ p.totalVolume →
        5 ∣ p'.totalVolume ∧
        ∀ o p'', applyVolOp o p' = some p'' →
          0 ≤ p''.totalVolume ∧ p''.totalVolume ≤ 100 ∧
          (p''.totalVolume = 0 → p'.totalVolume = 0 ∨ p'.totalVolume - 5 = 0) ∧
          (p''.totalVolume = 100 → p'.totalVolume = 100 ∨ p'.totalVolume + 5 = 100)) := by
  induction ops generalizing p with
  | nil =>
    refine ⟨p, rfl, h0, h100, ?_⟩
    intro h5
    refine ⟨h5, ?_⟩
    intro o p'' h''
    obtain ⟨q, hq1, _, hq3, hq4, hq5⟩ := volOp_invariant o p hv h0 h100
    rw [hq1] at h''
    injection h'' with h''
    subst h''
    obtain ⟨-, hqz, hqh⟩ := hq5 h5
    exact ⟨hq3, hq4, hqz, hqh⟩
  | cons o os ih =>
    obtain ⟨q, hq1, hq2, hq3, hq4, hq5⟩ := volOp_invariant o p hv h0 h100
    obtain ⟨p', hp1, hp2, hp3, hp4⟩ := ih q hq2 hq3 hq4
    refine ⟨p', ?_, hp2, hp3, ?_⟩
    · simp [runVolOps, hq1, hp1]
    · intro h5
      exact hp4 ((hq5 h5).1)

/-- Witness for C1 amended: from the counterexample's non-multiple start
(volume 3) two decrements stay inside `[0,100]`; and from the sample
player's volume 50 two decrements end at 40, inside the range, with every
further step from there landing exactly. -/
theorem volume_sequence_invariant_witness :
    (∃ p', runVolOps [VolOp.dec, VolOp.dec] c1Player = some p' ∧
      0 ≤ p'.totalVolume ∧ p'.totalVolume ≤ 100 ∧
      (5 ∣ c1Player.totalVolume →
        5 ∣ p'.totalVolume ∧
        ∀ o p'', applyVolOp o p' = some p'' →
          0 ≤ p''.totalVolume ∧ p''.totalVolume ≤ 100 ∧
          (p''.totalVolume = 0 → p'.totalVolume = 0 ∨ p'.totalVolume - 5 = 0) ∧
          (p''.totalVolume = 100 → p'.totalVolume = 100 ∨ p'.totalVolume + 5 = 100))) ∧
    (∃ p', runVolOps [VolOp.dec, VolOp.dec] samplePlayer = some p' ∧
      0 ≤ p'.totalVolume ∧ p'.totalVolume ≤ 100 ∧
      (5 ∣ samplePlayer.totalVolume →
        5 ∣ p'.totalVolume ∧
        ∀ o p'', applyVolOp o p' = some p'' →
          0 ≤ p''.totalVolume ∧ p''.totalVolume ≤ 100 ∧
          (p''.totalVolume = 0 → p'.totalVolume = 0 ∨ p'.totalVolume - 5 = 0) ∧
          (p''.totalVolume = 100 → p'.totalVolume = 100 ∨ p'.totalVolume + 5 = 100))) :=
  ⟨volume_sequence_invariant [VolOp.dec, VolOp.dec] c1Player
      (by rfl) (by decide) (by decide),
   volume_sequence_invariant [VolOp.dec, VolOp.dec] samplePlayer
      (by rfl) (by decide) (by decide)⟩

/-! ## Claim C2: the elapsed/duration invariant under ticks and seeks -/

/-- Counterexample to C2 as stated: the tick handler increments `elapsed`
with no clamp against `duration`, so from the valid observation point
`elapsed = duration = 0` (a file shorter than half a second rounds to
duration 0) a tick received while running and not completed pushes
`elapsed` strictly past `duration`. -/
theorem tick_exceeds_duration_cex :
    Update 0 Msg.tick c2ShortPlayer = some (c2TickedPlayer, Cmd.tickCmd) ∧
    c2ShortPlayer.running = true ∧ c2ShortPlayer.completed = false ∧
    c2ShortPlayer.err = none ∧
    0 ≤ c2ShortPlayer.elapsed ∧ c2ShortPlayer.elapsed ≤ c2ShortPlayer.duration ∧
    c2TickedPlayer.elapsed > c2TickedPlayer.duration := by
  exact ⟨rfl, rfl, rfl, rfl, by decide, by decide, by decide⟩

/-- Helper: a `Rewind` that returns keeps `elapsed` within `[0, duration]`
(given it started there) and never changes `duration`. -/
theorem Rewind_elapsed_bounds (now : Int) (p q : Player)
    (h0 : 0 ≤ p.elapsed) (hd : p.elapsed ≤ p.duration)
    (hq : Rewind now p = some q) :
    0 ≤ q.elapsed ∧ q.elapsed ≤ q.duration ∧ q.duration = p.duration := by
  unfold Rewind at hq
  split at hq
  · injection hq with hq
    subst hq
    exact ⟨h0, hd, rfl⟩
  · split at hq
    · cases hq
    · split at hq
      · injection hq with hq
        subst hq
        exact ⟨h0, hd, rfl⟩
      · simp only [] at hq
        split at hq <;>
        · injection hq with hq
          subst hq
          refine ⟨?_, ?_, rfl⟩ <;> simp only <;> split <;> omega

/-- Helper: a `Forward` that returns keeps `elapsed` within `[0, duration]`
(given it started there) and never changes `duration`. -/
theorem Forward_elapsed_bounds (now : Int) (p q : Player)
    (h0 : 0 ≤ p.elapsed) (hd : p.elapsed ≤ p.duration)
    (hq : Forward now p = some q) :
    0 ≤ q.elapsed ∧ q.elapsed ≤ q.duration ∧ q.duration = p.duration := by
  unfold Forward at hq
  split at hq
  · injection hq with hq
    subst hq
    exact ⟨h0, hd, rfl⟩
  · split at hq
    · cases hq
    · split at hq
      · injection hq with hq
        subst hq
        exact ⟨h0, hd, rfl⟩
      · simp only [] at hq
        split at hq <;>
        · injection hq with hq
          subst hq
          refine ⟨?_, ?_, rfl⟩ <;> simp only <;> split <;> omega

/-- C2 amended: a tick received while running and not completed increments
`elapsed` by exactly one unit — but unconditionally, with no clamp against
`duration`, so the upper bound is not enforced by the tick handler (it
relies on the asynchronous completion signal; see the counterexample) —
while seeks do keep `elapsed` within `[0, duration]`. -/
theorem tick_increments_seeks_clamp (now : Int) (p : Player)
    (he : p.err = none) (hi : p.hasInit = true) :
    (p.running = true → p.completed = false →
      Update now Msg.tick p = some ({ p with elapsed := p.elapsed + 1 }, Cmd.tickCmd)) ∧
    (0 ≤ p.elapsed → p.elapsed ≤ p.duration →
      (∀ q, Rewind now p = some q →
        0 ≤ q.elapsed ∧ q.elapsed ≤ q.duration ∧ q.duration = p.duration) ∧
      (∀ q, Forward now p = some q →
        0 ≤ q.elapsed ∧ q.elapsed ≤ q.duration ∧ q.duration = p.duration)) := by
  constructor
  · intro hr hc
    simp [Update, he, hi, hr, hc]
  · intro h0 hd
    exact ⟨fun q hq => Rewind_elapsed_bounds now p q h0 hd hq,
           fun q hq => Forward_elapsed_bounds now p q h0 hd hq⟩

/-- Witness for C2 amended, on the sample player (running, elapsed 8): the
tick advances `elapsed` to 9 re-arming the tick, and a forward seek keeps
`elapsed` within the bounds. -/
theorem tick_increments_seeks_clamp_witness :
    Update 0 Msg.tick samplePlayer
      = some ({ samplePlayer with elapsed := samplePlayer.elapsed + 1 }, Cmd.tickCmd) ∧
    ∀ q, Forward 1000000000 samplePlayer = some q →
      0 ≤ q.elapsed ∧ q.elapsed ≤ q.duration ∧ q.duration = samplePlayer.duration :=
  ⟨(tick_increments_seeks_clamp 0 samplePlayer (by rfl) (by rfl)).1 rfl rfl,
   fun q hq =>
     ((tick_increments_seeks_clamp 1000000000 samplePlayer (by rfl) (by rfl)).2
       (by decide) (by decide)).2 q hq⟩

/-! ## Claim C3: forward seeks near the end of the stream -/

/-- Counterexample to C3 as stated: on a real ten-second file the code's
`duration` is the rounded nanosecond count `10^10` returned by
`SampleRate.D(Len()).Round(time.Second)` while `elapsed` counts ticks, so
from `elapsed = 8` the guard `elapsed + 5 >= duration` does not fire and a
forward seek of 5 units yields `elapsed = 13`, not the claimed boundary
landing `elapsed = 10`.  (Even reading both quantities in the same unit the
claim fails: the guard zeroes the skip instead of truncating it, leaving
`elapsed` at 8 — see the amended theorem.) -/
theorem forward_truncation_cex :
    samplePlayer.elapsed = 8 ∧
    samplePlayer.duration = durRound (srD 44100 441000) oneSecond ∧
    (Forward 1000000000 samplePlayer).map (fun q => q.elapsed) = some 13 ∧
    (13 : Int) ≠ 10 := by
  exact ⟨rfl, rfl, by rfl, by decide⟩

/-- C3 amended: for every forward seek past the cooldown on an error-free
stream with `0 ≤ elapsed ≤ duration`, if the fixed 5-unit skip would reach
or cross the end (`elapsed + 5 ≥ duration`, a comparison of raw Duration
values) the skip amount is dropped to zero and `elapsed` is unchanged —
not truncated to land on the boundary; otherwise `elapsed` advances by
exactly 5. -/
theorem forward_skip_dropped (now : Int) (p : Player) (s : Stream)
    (hcool : SeekCooldown ≤ now - p.lastSeekTime)
    (hs : p.stream = some s) (herr : s.errF = none)
    (_h0 : 0 ≤ p.elapsed) (hd : p.elapsed ≤ p.duration) :
    ∃ q, Forward now p = some q ∧
      q.elapsed = (if p.elapsed + 5 ≥ p.duration then p.elapsed else p.elapsed + 5) := by
  unfold Forward
  rw [if_neg (not_lt.mpr hcool), hs]
  simp only [herr]
  by_cases hskip : p.elapsed + 5 ≥ p.duration
  · rw [if_pos hskip]
    cases hseek : streamSeek s (min (s.pos + srN p.format.sampleRate (oneSecond * 0)) (s.len - 1)) with
    | error e =>
      simp only [hseek]
      exact ⟨_, rfl, by simp only; rw [if_pos hskip]; omega⟩
    | ok s' =>
      simp only [hseek]
      exact ⟨_, rfl, by simp only; rw [if_pos hskip]; omega⟩
  · rw [if_neg hskip]
    cases hseek : streamSeek s (min (s.pos + srN p.format.sampleRate (oneSecond * 5)) (s.len - 1)) with
    | error e =>
      simp only [hseek]
      exact ⟨_, rfl, by simp only; rw [if_neg hskip]; omega⟩
    | ok s' =>
      simp only [hseek]
      exact ⟨_, rfl, by simp only; rw [if_neg hskip]; omega⟩

/-- Witness for C3 amended, at the sample player (the ten-second file at
`elapsed = 8`): the guard does not fire and the forward seek returns with
the 13-tick `elapsed` given by the if-characterization. -/
theorem forward_skip_dropped_witness :
    ∃ q, Forward 1000000000 samplePlayer = some q ∧
      q.elapsed = (if samplePlayer.elapsed + 5 ≥ samplePlayer.duration
        then samplePlayer.elapsed else samplePlayer.elapsed + 5) :=
  forward_skip_dropped 1000000000 samplePlayer sampleStream
    (by decide) (by rfl) (by rfl) (by decide) (by decide)

/-! ## Claim C9: `NewAudioFile` and the extension-removal discipline -/

/-- Name derivation as the spec words it.  Modelled from the spec: "the
base filename with its extension (the trailing occurrence) removed" —
since the extension, when present, is a suffix of the base name, removing
the trailing occurrence is dropping that suffix. -/
def specTrailingName (path : String) : String :=
  let b := (fpBase path).toList
  let e := (fpExt (fpBase path)).toList
  String.mk (b.take (b.length - e.length))

/-- Counterexample to C9 as stated: `NewAudioFile` removes the FIRST
occurrence of the extension substring from the base name
(`strings.Replace(base, ext, "", 1)`), not the trailing one; on
`"x.go.y.go"` the code produces the name `"x.y.go"` while removing the
trailing occurrence would produce `"x.go.y"`. -/
theorem newAudioFile_trailing_cex :
    (NewAudioFile "x.go.y.go").name = "x.y.go" ∧
    specTrailingName "x.go.y.go" = "x.go.y" ∧
    (NewAudioFile "x.go.y.go").name ≠ specTrailingName "x.go.y.go" := by
  exact ⟨rfl, rfl, by decide⟩

/-- Helper: the scan of `filepath.Ext` always returns a suffix of the
scanned string (stated over the reversed input plus accumulator). -/
theorem fpExtGo_suffix (rest : List Char) :
    ∀ seen, fpExtGo seen rest = [] ∨
      ∃ pre, rest.reverse ++ seen = pre ++ fpExtGo seen rest := by
  induction rest with
  | nil => intro seen; exact Or.inl rfl
  | cons c rest ih =>
    intro seen
    unfold fpExtGo
    by_cases h1 : isSlash c
    · rw [if_pos h1]; exact Or.inl rfl
    · rw [if_neg h1]
      by_cases h2 : c = '.'
      · rw [if_pos h2]
        refine Or.inr ⟨rest.reverse, ?_⟩
        rw [List.reverse_cons, List.append_assoc]
        rfl
      · rw [if_neg h2]
        rcases ih (c :: seen) with h | ⟨pre, hpre⟩
        · exact Or.inl h
        · refine Or.inr ⟨pre, ?_⟩
          rw [List.reverse_cons, List.append_assoc]
          exact hpre

/-- Helper: when `old` is non-empty and occurs in `s`, `replaceFirstAux`
replaces exactly the first occurrence: `s` splits as `pre ++ old ++ suf`,
the result is `pre ++ new ++ suf`, and no occurrence of `old` starts
before `pre.length`. -/
theorem replaceFirstAux_decomp (old new : List Char) (hold : old ≠ []) :
    ∀ s pre0 suf0, s = pre0 ++ old ++ suf0 →
    ∃ pre suf, s = pre ++ old ++ suf ∧
      replaceFirstAux old new s = pre ++ new ++ suf ∧
      ∀ j < pre.length, (s.drop j).take old.length ≠ old := by
  intro s
  induction s with
  | nil =>
    intro pre0 suf0 h
    exfalso
    have h' := h.symm
    rw [List.append_assoc] at h'
    rcases List.append_eq_nil.mp h' with ⟨-, h2⟩
    rcases List.append_eq_nil.mp h2 with ⟨h3, -⟩
    exact hold h3
  | cons c rest ih =>
    intro pre0 suf0 h
    by_cases hpref : (c :: rest).take old.length = old
    · refine ⟨[], (c :: rest).drop old.length, ?_, ?_, ?_⟩
      · conv_lhs => rw [← List.take_append_drop old.length (c :: rest)]
        rw [hpref]
        rfl
      · unfold replaceFirstAux
        rw [if_pos hpref]
        rfl
      · intro j hj
        exact absurd hj (by simp)
    · cases pre0 with
      | nil =>
        exfalso
        apply hpref
        rw [List.nil_append] at h
        rw [h]
        exact List.take_left old suf0
      | cons c0 pre0' =>
        rw [List.cons_append, List.cons_append] at h
        injection h with h1 h2
        obtain ⟨pre, suf, hs1, hs2, hmin⟩ := ih pre0' suf0 h2
        refine ⟨c :: pre, suf, ?_, ?_, ?_⟩
        · rw [List.cons_append, List.cons_append, ← hs1]
        · unfold replaceFirstAux
          rw [if_neg hpref, hs2]
          rfl
        · intro j hj
          cases j with
          | zero => exact hpref
          | succ j' =>
            rw [List.drop_succ_cons]
            exact hmin j' (Nat.lt_of_succ_lt_succ hj)

/-- C9 amended: for every input path, `NewAudioFile(path)` keeps the path
unchanged and derives `ext` as the extension of the base filename; the
`name` is the base filename with the FIRST occurrence of the extension
substring removed (the trailing occurrence only when the extension does
not occur earlier — see the counterexample): when the extension is empty
the name is the whole base, and otherwise the base splits as
`pre ++ ext ++ suf` with `name = pre ++ suf` and no earlier occurrence of
`ext` in the base. -/
theorem newAudioFile_first_occurrence (path : String) :
    (NewAudioFile path).path = path ∧
    (NewAudioFile path).ext = fpExt (fpBase path) ∧
    (fpExt (fpBase path) = "" → (NewAudioFile path).name = fpBase path) ∧
    (fpExt (fpBase path) ≠ "" →
      ∃ pre suf : List Char,
        (fpBase path).toList = pre ++ (fpExt (fpBase path)).toList ++ suf ∧
        (NewAudioFile path).name.toList = pre ++ suf ∧
        ∀ j < pre.length,
          ((fpBase path).toList.drop j).take (fpExt (fpBase path)).toList.length
            ≠ (fpExt (fpBase path)).toList) := by
  refine ⟨rfl, rfl, ?_, ?_⟩
  · intro hext
    show String.mk (replaceFirst (fpBase path).toList (fpExt (fpBase path)).toList [])
        = fpBase path
    rw [hext]
    rfl
  · intro hext
    have hne : (fpExt (fpBase path)).toList ≠ [] := by
      intro h
      apply hext
      have : fpExt (fpBase path) = String.mk (fpExt (fpBase path)).toList := rfl
      rw [this, h]
    rcases fpExtGo_suffix ((fpBase path).toList.reverse) [] with h | ⟨pre0, hpre0⟩
    · exact absurd h hne
    · rw [List.reverse_reverse, List.append_nil] at hpre0
      have hocc : (fpBase path).toList
          = pre0 ++ (fpExt (fpBase path)).toList ++ [] := by
        rw [List.append_nil]; exact hpre0
      obtain ⟨pre, suf, hs1, hs2, hmin⟩ :=
        replaceFirstAux_decomp (fpExt (fpBase path)).toList [] hne
          (fpBase path).toList pre0 [] hocc
      refine ⟨pre, suf, hs1, ?_, hmin⟩
      show replaceFirst (fpBase path).toList (fpExt (fpBase path)).toList [] = pre ++ suf
      unfold replaceFirst
      rw [if_neg hne, hs2]
      simp

/-- Witness for C9 amended at the path `"b.mp3"`: the extension is
non-empty, so the base splits around its first occurrence. -/
theorem newAudioFile_first_occurrence_witness :
    (NewAudioFile "b.mp3").path = "b.mp3" ∧
    (NewAudioFile "b.mp3").ext = fpExt (fpBase "b.mp3") ∧
    ∃ pre suf : List Char,
      (fpBase "b.mp3").toList = pre ++ (fpExt (fpBase "b.mp3")).toList ++ suf ∧
      (NewAudioFile "b.mp3").name.toList = pre ++ suf ∧
      ∀ j < pre.length,
        ((fpBase "b.mp3").toList.drop j).take (fpExt (fpBase "b.mp3")).toList.length
          ≠ (fpExt (fpBase "b.mp3")).toList :=
  ⟨(newAudioFile_first_occurrence "b.mp3").1,
   (newAudioFile_first_occurrence "b.mp3").2.1,
   (newAudioFile_first_occurrence "b.mp3").2.2.2 (by decide)⟩

end Tempo
